import Mathlib

/-!
Shallow embedding of the TimeTagger MCP server (`timetagger_mcp.py`).

The tools are synchronous request/response functions.  Network effects are
made explicit: every function takes the server responses it would receive as
parameters (`PutResponse`, `GetRecordsResponse`, ...) and reports which
requests it issued (`fetchSince`, `putBody`, `timerange`) alongside its
Python return value or raised exception (`Except ToolError _`).
Unix timestamps are `Int`, fractional hours are `ℚ`, Python dicts keyed by
strings are insertion-ordered association lists.
-/

namespace TimetaggerMCP

/-- A TimeTagger record (`TimeRecord` in the source): optional key, start and
end Unix timestamps, description, client modified time, server time. -/
structure TimeRecord where
  key : Option String
  t1 : Int
  t2 : Int
  ds : String
  mt : Option Int := none
  st : Option ℚ := some 0
  deriving DecidableEq

/-- A TimeTagger setting (`TimeSetting` in the source); `α` stands for the
arbitrary JSON value type of `value`. -/
structure TimeSetting (α : Type) where
  key : String
  value : α
  mt : Option Int := none
  st : Option ℚ := some 0
  deriving DecidableEq

/-- The exceptions the tools raise, one constructor per raise site:
`ValueError` for a bad action, `ValueError` for missing arguments, the
record-not-found `Exception`, the key-not-accepted `Exception` on a 200 PUT,
and the non-200 `Exception` carrying status and body. -/
inductive ToolError where
  | invalidAction (action : String)
  | validation (msg : String)
  | notFound (key : String)
  | partialAcceptance (errors : List String)
  | upstream (status : Nat) (body : String)
  deriving DecidableEq

/-- Python `s.startswith(pre)`. -/
def pyStartswith (s pre : String) : Bool :=
  pre.data.isPrefixOf s.data

/-- Contiguous-sublist test on character lists: `pat` occurs inside `s`. -/
def listInfix (pat : List Char) : List Char → Bool
  | [] => pat.isEmpty
  | c :: cs => pat.isPrefixOf (c :: cs) || listInfix pat cs

/-- Python `pat in s`: substring containment. -/
def pyIn (pat s : String) : Bool :=
  listInfix pat.data s.data

instance {ε α : Type} [DecidableEq ε] [DecidableEq α] : DecidableEq (Except ε α) :=
  fun a b =>
    match a, b with
    | .ok a, .ok b => decidable_of_iff (a = b) (by simp)
    | .error e, .error f => decidable_of_iff (e = f) (by simp)
    | .ok _, .error _ => .isFalse (fun h => Except.noConfusion h)
    | .error _, .ok _ => .isFalse (fun h => Except.noConfusion h)

/-- Helper for `pySplit`: walk the characters, accumulating the current
token reversed, emitting it at each whitespace run. -/
def wsSplitAux : List Char → List Char → List String
  | [], acc => if acc.isEmpty then [] else [⟨acc.reverse⟩]
  | c :: cs, acc =>
    if c.isWhitespace then
      if acc.isEmpty then wsSplitAux cs [] else ⟨acc.reverse⟩ :: wsSplitAux cs []
    else wsSplitAux cs (c :: acc)

/-- Python `s.split()` with no argument: split on whitespace runs and drop
empty tokens. -/
def pySplit (s : String) : List String :=
  wsSplitAux s.data []

/-- Status and JSON body of a `PUT /records` or `PUT /settings` response.
`accepted` and `errors` are `none` when the JSON omits the field; the source
reads them with `result.get("accepted", [])` and
`result.get("errors", ["Unknown error"])`. -/
structure PutResponse where
  status : Nat
  accepted : Option (List String) := none
  errors : Option (List String) := none
  body : String := ""
  deriving DecidableEq

/-- Status and JSON body of a `GET /records` response. -/
structure GetRecordsResponse where
  status : Nat
  records : List TimeRecord := []
  body : String := ""
  deriving DecidableEq

/-- Status and JSON body of a `GET /settings` response. -/
structure GetSettingsResponse (α : Type) where
  status : Nat
  settings : List (TimeSetting α) := []
  body : String := ""

/-- Shared tail of every write in the source: on HTTP 200 the submitted key
must appear in `accepted`, otherwise an `Exception` is raised; a non-200
response raises with status and body. -/
def checkPut {β : Type} (k : String) (payload : β) (resp : PutResponse) :
    Except ToolError β :=
  if resp.status = 200 then
    if k ∈ resp.accepted.getD [] then .ok payload
    else .error (.partialAcceptance (resp.errors.getD ["Unknown error"]))
  else .error (.upstream resp.status resp.body)

/-- Outcome of one `manage_record` call: the Python return value or raised
exception, the `since` argument of the `get_updates_since` call it made (if
any), and the record it sent as a `PUT` body (if any). -/
structure MRResult where
  result : Except ToolError TimeRecord
  fetchSince : Option Int := none
  putBody : Option TimeRecord := none
  deriving DecidableEq

/-- The `action == "create"` branch of `manage_record`: default `t1` to now,
`t2` to `t1`, build the record with the fresh key, PUT it and check
acceptance. -/
def createRecord (now : Int) (freshKey : String) (resp : PutResponse)
    (ds : String) (start_time end_time : Option Int) : MRResult :=
  let t1 := start_time.getD now
  let t2 := end_time.getD t1
  let record : TimeRecord := ⟨some freshKey, t1, t2, ds, some now, some 0⟩
  ⟨checkPut freshKey record resp, none, some record⟩

/-- The `action == "hide"` description rewrite: prefix with `HIDDEN ` unless
the description already starts with `HIDDEN`. -/
def hideDs (ds : String) : String :=
  if pyStartswith ds "HIDDEN" then ds else "HIDDEN " ++ ds

/-- `manage_record` from the source.  `now` is `int(time.time())`, `freshKey`
the generated uuid hex prefix, `history` the records returned by
`get_updates_since(0)`, and `resp` the response to the `PUT /records`
request (consulted only when such a request is issued). -/
def manage_record (now : Int) (freshKey : String) (history : List TimeRecord)
    (resp : PutResponse) (action : String) (description : Option String)
    (start_time end_time : Option Int) (key : Option String) : MRResult :=
  if ¬ ((["create", "update", "hide", "start", "stop"] : List String).contains action) then
    ⟨.error (.invalidAction action), none, none⟩
  else if action = "create" then
    match description with
    | none => ⟨.error (.validation "Description is required for creating a record"), none, none⟩
    | some ds => createRecord now freshKey resp ds start_time end_time
  else if action = "start" then
    match description with
    | none => ⟨.error (.validation "Description is required for starting a timer"), none, none⟩
    | some ds => createRecord now freshKey resp ds (some now) (some now)
  else
    match key with
    | none =>
      ⟨.error (.validation ("Record key is required for " ++ action ++ " action")), none, none⟩
    | some k =>
      match history.find? (fun r => r.key == some k) with
      | none => ⟨.error (.notFound k), some 0, none⟩
      | some current =>
        let description :=
          if action = "hide" then some (hideDs current.ds)
          else if action = "stop" then some current.ds
          else description
        let end_time := if action = "stop" then some now else end_time
        let updated : TimeRecord :=
          ⟨some k, start_time.getD current.t1, end_time.getD current.t2,
            description.getD current.ds, some now, some 0⟩
        ⟨checkPut k updated resp, some 0, some updated⟩

/-- Result of `manage_settings`: Python returns either the settings list
(`get`) or the single updated setting (`update`). -/
inductive MSValue (α : Type) where
  | settingsList (settings : List (TimeSetting α))
  | single (setting : TimeSetting α)

/-- Outcome of one `manage_settings` call, with the setting sent as a `PUT`
body, if any. -/
structure MSResult (α : Type) where
  result : Except ToolError (MSValue α)
  putBody : Option (TimeSetting α) := none

/-- `manage_settings` from the source.  `getResp` is the `GET /settings`
response, `putResp` the `PUT /settings` response; each is consulted only when
the corresponding request is issued. -/
def manage_settings {α : Type} (now : Int) (getResp : GetSettingsResponse α)
    (putResp : PutResponse) (action : String) (key : Option String)
    (value : Option α) : MSResult α :=
  if ¬ ((["get", "update"] : List String).contains action) then
    ⟨.error (.invalidAction action), none⟩
  else if action = "get" then
    if getResp.status = 200 then ⟨.ok (.settingsList getResp.settings), none⟩
    else ⟨.error (.upstream getResp.status getResp.body), none⟩
  else
    match key with
    | none => ⟨.error (.validation "Setting key is required for update action"), none⟩
    | some k =>
      match value with
      | none => ⟨.error (.validation "Setting value is required for update action"), none⟩
      | some v =>
        let setting : TimeSetting α := ⟨k, v, some now, some 0⟩
        ⟨checkPut k (MSValue.single setting) putResp, some setting⟩

/-- The time-window computation at the top of `get_records`.  `midnight` is
`int(datetime.now().replace(hour=0, minute=0, second=0, microsecond=0)
.timestamp())`, local midnight of the current day. -/
def computeTimerange (now midnight : Int) (start_time end_time : Option Int)
    (time_period : Option String) : Except ToolError (Int × Int) :=
  let periodTruthy : Bool :=
    match time_period with
    | none => false
    | some p => decide (p ≠ "")
  let ranged : Except ToolError (Option Int × Option Int) :=
    if periodTruthy then
      let p := time_period.getD ""
      if p = "today" then .ok (some midnight, some now)
      else if p = "yesterday" then .ok (some (midnight - 86400), some midnight)
      else if p = "week" then .ok (some (now - 7 * 24 * 3600), some now)
      else if p = "month" then .ok (some (now - 30 * 24 * 3600), some now)
      else if pyStartswith p "hours:" then
        match ((p.splitOn ":").getD 1 "").toInt? with
        | some hours => .ok (some (now - hours * 3600), some now)
        | none => .error (.validation "Invalid hours format. Use 'hours:N' where N is a number.")
      else .ok (start_time, end_time)
    else .ok (start_time, end_time)
  match ranged with
  | .error e => .error e
  | .ok (s, e) =>
    let se :=
      if s = none ∧ e = none ∧ periodTruthy = false then
        (some (now - 24 * 3600), some now)
      else (s, e)
    .ok (se.1.getD 0, se.2.getD now)

/-- Outcome of one `get_records` call: the filtered record list or raised
exception, and the timerange of the `GET /records` request that was issued
(if any). -/
structure GRResult where
  result : Except ToolError (List TimeRecord)
  timerange : Option (Int × Int) := none
  deriving DecidableEq

/-- `get_records` from the source: resolve the window, fetch, then filter by
tag (Python `if tag:` makes an empty or absent tag skip the filter; the tag
is normalized to carry a leading `#` and matched as a substring of the
description). -/
def get_records (now midnight : Int) (resp : GetRecordsResponse)
    (start_time end_time : Option Int) (time_period tag : Option String) : GRResult :=
  match computeTimerange now midnight start_time end_time time_period with
  | .error e => ⟨.error e, none⟩
  | .ok (t1, t2) =>
    if resp.status = 200 then
      let records := resp.records
      let tagTruthy : Bool :=
        match tag with
        | none => false
        | some t => decide (t ≠ "")
      let records :=
        if tagTruthy then
          let t := tag.getD ""
          let t := if pyStartswith t "#" then t else "#" ++ t
          records.filter (fun r => pyIn t r.ds)
        else records
      ⟨.ok records, some (t1, t2)⟩
    else ⟨.error (.upstream resp.status resp.body), some (t1, t2)⟩

/-- Python `tag_hours[k] = tag_hours.get(k, 0) + d` on an insertion-ordered
dict represented as an association list. -/
def addHours : List (String × ℚ) → String → ℚ → List (String × ℚ)
  | [], k, d => [(k, d)]
  | (k', v) :: m, k, d =>
    if k' = k then (k', v + d) :: m else (k', v) :: addHours m k d

/-- Record duration in hours, `(record.t2 - record.t1) / 3600`. -/
def duration (r : TimeRecord) : ℚ :=
  ((r.t2 : ℚ) - (r.t1 : ℚ)) / 3600

/-- One record of the `"summary"` analysis: skip negative durations, extract
`#`-tokens, credit the full duration to each tag or to `"untagged"`. -/
def summaryStep (m : List (String × ℚ)) (r : TimeRecord) : List (String × ℚ) :=
  if duration r < 0 then m
  else
    let tags := (pySplit r.ds).filter (fun w => pyStartswith w "#")
    if tags.isEmpty then addHours m "untagged" (duration r)
    else tags.foldl (fun m tk => addHours m tk (duration r)) m

/-- One record of the `"daily"` analysis; `dayOf` is
`datetime.fromtimestamp(t).strftime("%Y-%m-%d")`, a parameter of the
environment's local time. -/
def dailyStep (dayOf : Int → String) (m : List (String × ℚ)) (r : TimeRecord) :
    List (String × ℚ) :=
  if duration r < 0 then m
  else addHours m (dayOf r.t1) (duration r)

/-- The initial dict of the `"hourly"` analysis, `{str(h): 0 for h in range(24)}`. -/
def hourlyInit : List (String × ℚ) :=
  (List.range 24).map (fun h => (toString h, 0))

/-- One record of the `"hourly"` analysis; `hourOf` is
`datetime.fromtimestamp(t).hour`, a parameter of the environment's local
time.  Both branches of the source credit the full duration to the start
hour. -/
def hourlyStep (hourOf : Int → Fin 24) (m : List (String × ℚ)) (r : TimeRecord) :
    List (String × ℚ) :=
  if duration r < 0 then m
  else
    let start_hour := hourOf r.t1
    let end_hour := hourOf r.t2
    if start_hour = end_hour then addHours m (toString start_hour.val) (duration r)
    else addHours m (toString start_hour.val) (duration r)

/-- `analyze_time` from the source: fetch records via `get_records` with only
`time_period` and `tag`, drop records whose description starts with
`HIDDEN`, then run the requested analysis.  The Python return value
`{"type": ty, "data": d}` is the pair `(ty, d)`. -/
def analyze_time (now midnight : Int) (dayOf : Int → String) (hourOf : Int → Fin 24)
    (resp : GetRecordsResponse) (analysis_type time_period : String)
    (tag : Option String) : Except ToolError (String × List (String × ℚ)) :=
  match (get_records now midnight resp none none (some time_period) tag).result with
  | .error e => .error e
  | .ok records =>
    let records := records.filter (fun r => !(pyStartswith r.ds "HIDDEN"))
    if analysis_type = "summary" then
      .ok ("summary", records.foldl summaryStep [])
    else if analysis_type = "daily" then
      .ok ("daily", records.foldl (dailyStep dayOf) [])
    else if analysis_type = "hourly" then
      .ok ("hourly", records.foldl (hourlyStep hourOf) hourlyInit)
    else
      .error (.validation ("Invalid analysis type: " ++ analysis_type))

/-- The summary analysis as claim C1 words it: hidden records are excluded,
every whitespace-delimited `#`-token receives the record's full duration
`(t2 - t1) / 3600`, tagless records accumulate under `"untagged"` — with no
provision for skipping records of negative duration. -/
def claimSummaryStep (m : List (String × ℚ)) (r : TimeRecord) : List (String × ℚ) :=
  let tags := (pySplit r.ds).filter (fun w => pyStartswith w "#")
  if tags.isEmpty then addHours m "untagged" (duration r)
  else tags.foldl (fun m tk => addHours m tk (duration r)) m

/-- The whole claimed summary mapping for a list of fetched records. -/
def claimSummary (records : List TimeRecord) : List (String × ℚ) :=
  (records.filter (fun r => !(pyStartswith r.ds "HIDDEN"))).foldl claimSummaryStep []

/-- The tag search as claim C5 words it: normalize the tag to carry a leading
`#`, keep exactly the records whose description contains it as a substring. -/
def claimTagFilter (t : String) (records : List TimeRecord) : List TimeRecord :=
  let nt := if pyStartswith t "#" then t else "#" ++ t
  records.filter (fun r => pyIn nt r.ds)

/-! Helper lemmas. -/

theorem checkPut_rejected {β : Type} (k : String) (payload : β) (resp : PutResponse)
    (h200 : resp.status = 200) (hk : k ∉ resp.accepted.getD []) :
    checkPut k payload resp
      = .error (.partialAcceptance (resp.errors.getD ["Unknown error"])) := by
  unfold checkPut
  rw [if_pos h200, if_neg hk]

theorem pyStartswith_hidden (s : String) :
    pyStartswith ("HIDDEN " ++ s) "HIDDEN" = true := by
  have h : "HIDDEN".data <+: "HIDDEN ".data ++ s.data :=
    List.IsPrefix.trans (by decide) (List.prefix_append _ _)
  simp only [pyStartswith, String.data_append, List.isPrefixOf_iff_prefix]
  exact h

theorem hideDs_of_hidden {s : String} (h : pyStartswith s "HIDDEN" = true) :
    hideDs s = s := by
  unfold hideDs
  rw [if_pos h]

theorem hideDs_idem (s : String) : hideDs (hideDs s) = hideDs s := by
  by_cases h : pyStartswith s "HIDDEN" = true
  · rw [hideDs_of_hidden h, hideDs_of_hidden h]
  · have h1 : hideDs s = "HIDDEN " ++ s := by
      unfold hideDs
      rw [if_neg h]
    rw [h1, hideDs_of_hidden (pyStartswith_hidden s)]

theorem duration_nonneg {r : TimeRecord} (h : r.t1 ≤ r.t2) : 0 ≤ duration r := by
  unfold duration
  have h1 : (0 : ℚ) ≤ (r.t2 : ℚ) - (r.t1 : ℚ) := by
    rw [sub_nonneg]
    exact_mod_cast h
  positivity

theorem duration_neg {r : TimeRecord} (h : r.t2 < r.t1) : duration r < 0 := by
  unfold duration
  apply div_neg_of_neg_of_pos
  · rw [sub_neg]
    exact_mod_cast h
  · norm_num

/-! Claim theorems. -/

/-- C7: `manage_record` with action `create` or `start` and no description
fails immediately with a validation error; no `get_updates_since` fetch and
no `PUT` request is issued. -/
theorem create_start_require_description
    (now : Int) (freshKey : String) (history : List TimeRecord) (resp : PutResponse)
    (start_time end_time : Option Int) (key : Option String) :
    manage_record now freshKey history resp "create" none start_time end_time key
      = ⟨.error (.validation "Description is required for creating a record"), none, none⟩
    ∧ manage_record now freshKey history resp "start" none start_time end_time key
      = ⟨.error (.validation "Description is required for starting a timer"), none, none⟩ :=
  ⟨rfl, rfl⟩

/-- C9: with no `start_time`, `end_time` or `time_period`, `get_records`
requests the window of the last 24 hours ending now; with only `start_time`
missing the requested range starts at 0; with only `end_time` missing it ends
at `now`. -/
theorem get_records_default_window
    (now midnight : Int) (resp : GetRecordsResponse) (tag : Option String)
    (s e : Int) :
    (get_records now midnight resp none none none tag).timerange
      = some (now - 24 * 3600, now)
    ∧ (get_records now midnight resp none (some e) none tag).timerange = some (0, e)
    ∧ (get_records now midnight resp (some s) none none tag).timerange
      = some (s, now) := by
  refine ⟨?_, ?_, ?_⟩ <;>
    simp [get_records, computeTimerange, apply_ite GRResult.timerange]

/-- C8: action `start` is the same call as action `create` with both times set
to `now`, and action `stop` on key `k` is the same call as action `update`
with only `t2` set to `now` (description and `t1` resolved from the record's
current state). -/
theorem start_stop_equivalence
    (now : Int) (freshKey : String) (history : List TimeRecord) (resp : PutResponse)
    (ds : String) (description : Option String) (start_time end_time : Option Int)
    (key : Option String) (k : String) :
    manage_record now freshKey history resp "start" (some ds) start_time end_time key
      = manage_record now freshKey history resp "create" (some ds) (some now) (some now) key
    ∧ manage_record now freshKey history resp "stop" description start_time end_time (some k)
      = manage_record now freshKey history resp "update" none start_time (some now) (some k) := by
  constructor
  · rfl
  · unfold manage_record
    cases history.find? (fun r => r.key == some k) <;> rfl

/-- C6: for actions `update`, `hide` and `stop`, `manage_record` resolves the
record by a full-history scan (`get_updates_since(0)`); when no record in the
scan has the given key it fails with the not-found error and issues no
`PUT`. -/
theorem missing_key_not_found_no_write
    (now : Int) (freshKey : String) (history : List TimeRecord) (resp : PutResponse)
    (description : Option String) (start_time end_time : Option Int) (k : String)
    (action : String)
    (ha : action = "update" ∨ action = "hide" ∨ action = "stop") :
    (manage_record now freshKey history resp action description start_time end_time
        (some k)).fetchSince = some 0
    ∧ (history.find? (fun r => r.key == some k) = none →
        manage_record now freshKey history resp action description start_time end_time (some k)
          = ⟨.error (.notFound k), some 0, none⟩) := by
  rcases ha with h | h | h <;> subst h <;>
    refine ⟨?_, fun hfind => ?_⟩ <;>
      first
      | simp [manage_record, hfind]
      | rcases hf : history.find? (fun r => r.key == some k) with _ | c <;>
          simp [manage_record, hf]

/-- Witness for C6 at a concrete empty history. -/
theorem missing_key_not_found_no_write_witness :
    ("update" = "update" ∨ "update" = "hide" ∨ "update" = "stop")
    ∧ ((manage_record 0 "zz" [] ⟨200, none, none, ""⟩ "update" none none none
        (some "k1")).fetchSince = some 0
      ∧ (List.find? (fun r => r.key == some "k1") ([] : List TimeRecord) = none →
          manage_record 0 "zz" [] ⟨200, none, none, ""⟩ "update" none none none (some "k1")
            = ⟨.error (.notFound "k1"), some 0, none⟩)) :=
  ⟨Or.inl rfl,
    missing_key_not_found_no_write 0 "zz" [] ⟨200, none, none, ""⟩ none none none "k1"
      "update" (Or.inl rfl)⟩

/-- C2: every write — record create, update, hide or stop, and setting
update — whose PUT response has status 200 without the submitted key in the
accepted set raises the rejected-key error rather than returning the record
or setting as a success. -/
theorem put_rejected_not_success
    (now : Int) (freshKey : String) (history : List TimeRecord) (resp : PutResponse)
    (h200 : resp.status = 200) :
    (∀ (ds : String) (start_time end_time : Option Int) (key : Option String),
      freshKey ∉ resp.accepted.getD [] →
      (manage_record now freshKey history resp "create" (some ds) start_time end_time
          key).result
        = .error (.partialAcceptance (resp.errors.getD ["Unknown error"])))
    ∧ (∀ (action : String) (description : Option String) (start_time end_time : Option Int)
        (k : String) (current : TimeRecord),
        action = "update" ∨ action = "hide" ∨ action = "stop" →
        history.find? (fun r => r.key == some k) = some current →
        k ∉ resp.accepted.getD [] →
        (manage_record now freshKey history resp action description start_time end_time
            (some k)).result
          = .error (.partialAcceptance (resp.errors.getD ["Unknown error"])))
    ∧ (∀ (α : Type) (now2 : Int) (getResp : GetSettingsResponse α) (presp : PutResponse)
        (k2 : String) (v : α),
        presp.status = 200 → k2 ∉ presp.accepted.getD [] →
        (manage_settings now2 getResp presp "update" (some k2) (some v)).result
          = .error (.partialAcceptance (presp.errors.getD ["Unknown error"]))) := by
  refine ⟨?_, ?_, ?_⟩
  · intro ds start_time end_time key hk
    simp [manage_record, createRecord, checkPut_rejected freshKey _ resp h200 hk]
  · intro action description start_time end_time k current ha hfind hk
    rcases ha with h | h | h <;> subst h <;>
      simp [manage_record, hfind, checkPut_rejected k _ resp h200 hk]
  · intro α now2 getResp presp k2 v hp200 hk
    simp [manage_settings, checkPut_rejected k2 _ presp hp200 hk]

/-- Witness for C2: a concrete create whose 200 response accepts nothing. -/
theorem put_rejected_not_success_witness :
    ((⟨200, some [], some ["boom"], ""⟩ : PutResponse).status = 200)
    ∧ ("ab" ∉ (⟨200, some [], some ["boom"], ""⟩ : PutResponse).accepted.getD [])
    ∧ (manage_record 7 "ab" [] ⟨200, some [], some ["boom"], ""⟩ "create" (some "x")
        none none none).result = .error (.partialAcceptance ["boom"]) :=
  ⟨rfl, by decide,
    (put_rejected_not_success 7 "ab" [] ⟨200, some [], some ["boom"], ""⟩ rfl).1
      "x" none none none (by decide)⟩

/-- C3 counterexample: a bare update (no optional fields) on a record whose
server time is 7 returns a record whose server time has been reset to 0, so
the result does not equal the pre-update record in every field except
`modified_time`: `st` changes too. -/
theorem update_noop_server_time_cex :
    (manage_record 100 "zz" [⟨some "k1", 10, 20, "work", some 50, some 7⟩]
        ⟨200, some ["k1"], none, ""⟩ "update" none none none (some "k1")).result
      = .ok ⟨some "k1", 10, 20, "work", some 100, some 0⟩
    ∧ (⟨some "k1", 10, 20, "work", some 100, some 0⟩ : TimeRecord).st
        ≠ (⟨some "k1", 10, 20, "work", some 50, some 7⟩ : TimeRecord).st := by
  constructor
  · rfl
  · decide

/-- C3 amended: an update with none of description, start or end time keeps
`key`, `t1`, `t2` and `ds` of the pre-update record, sets `mt := now`, and
resets `st` to 0 for the server to fill in. -/
theorem update_noop_preserves_fields
    (now : Int) (freshKey : String) (history : List TimeRecord) (resp : PutResponse)
    (k : String) (current : TimeRecord)
    (hfind : history.find? (fun r => r.key == some k) = some current)
    (h200 : resp.status = 200) (hacc : k ∈ resp.accepted.getD []) :
    (manage_record now freshKey history resp "update" none none none (some k)).result
      = .ok ⟨some k, current.t1, current.t2, current.ds, some now, some 0⟩ := by
  simp [manage_record, hfind, checkPut, h200, hacc]

/-- Witness for C3's amended statement at a concrete record. -/
theorem update_noop_preserves_fields_witness :
    (List.find? (fun r => r.key == some "k1")
        ([⟨some "k1", 10, 20, "work", some 50, some 7⟩] : List TimeRecord)
      = some ⟨some "k1", 10, 20, "work", some 50, some 7⟩)
    ∧ (manage_record 100 "zz" [⟨some "k1", 10, 20, "work", some 50, some 7⟩]
        ⟨200, some ["k1"], none, ""⟩ "update" none none none (some "k1")).result
      = .ok ⟨some "k1", 10, 20, "work", some 100, some 0⟩ :=
  ⟨rfl,
    update_noop_preserves_fields 100 "zz" _ _ "k1" ⟨some "k1", 10, 20, "work", some 50, some 7⟩
      rfl rfl (by decide)⟩

/-- C4: hiding is idempotent on the description — a second hide of the record
returned by a first hide leaves the description unchanged (one `HIDDEN `
prefix, never doubled), and hiding a record whose description already starts
with `HIDDEN` keeps the description as it was. -/
theorem hide_idempotent
    (now : Int) (freshKey : String) (history : List TimeRecord) (resp : PutResponse)
    (k : String) (current u : TimeRecord)
    (hfind : history.find? (fun r => r.key == some k) = some current)
    (hok : (manage_record now freshKey history resp "hide" none none none
        (some k)).result = .ok u)
    (now2 : Int) (freshKey2 : String) (history2 : List TimeRecord) (resp2 : PutResponse)
    (hfind2 : history2.find? (fun r => r.key == some k) = some u)
    (h200 : resp2.status = 200) (hacc : k ∈ resp2.accepted.getD []) :
    (manage_record now2 freshKey2 history2 resp2 "hide" none none none (some k)).result
      = .ok ⟨some k, u.t1, u.t2, u.ds, some now2, some 0⟩
    ∧ (pyStartswith current.ds "HIDDEN" = true → u.ds = current.ds) := by
  have hds : u.ds = hideDs current.ds := by
    simp [manage_record, hfind, checkPut] at hok
    split at hok
    · split at hok
      · injection hok with h
        rw [← h]
      · simp at hok
    · simp at hok
  constructor
  · have h2 : hideDs u.ds = u.ds := by
      rw [hds, hideDs_idem]
    simp [manage_record, hfind2, h2, checkPut, h200, hacc]
  · intro hh
    rw [hds, hideDs_of_hidden hh]

/-- Witness for C4: hide a concrete record twice. -/
theorem hide_idempotent_witness :
    (List.find? (fun r => r.key == some "k1")
        ([⟨some "k1", 0, 5, "work", none, some 0⟩] : List TimeRecord)
      = some ⟨some "k1", 0, 5, "work", none, some 0⟩)
    ∧ ((manage_record 1 "f1" [⟨some "k1", 0, 5, "work", none, some 0⟩]
        ⟨200, some ["k1"], none, ""⟩ "hide" none none none (some "k1")).result
      = .ok ⟨some "k1", 0, 5, "HIDDEN work", some 1, some 0⟩)
    ∧ ((manage_record 2 "f2" [⟨some "k1", 0, 5, "HIDDEN work", some 1, some 0⟩]
        ⟨200, some ["k1"], none, ""⟩ "hide" none none none (some "k1")).result
      = .ok ⟨some "k1", 0, 5, "HIDDEN work", some 2, some 0⟩)
    ∧ (pyStartswith "work" "HIDDEN" = true → "HIDDEN work" = "work") := by
  refine ⟨rfl, rfl, ?_, ?_⟩
  · exact (hide_idempotent 1 "f1" [⟨some "k1", 0, 5, "work", none, some 0⟩]
      ⟨200, some ["k1"], none, ""⟩ "k1" ⟨some "k1", 0, 5, "work", none, some 0⟩
      ⟨some "k1", 0, 5, "HIDDEN work", some 1, some 0⟩ rfl rfl
      2 "f2" [⟨some "k1", 0, 5, "HIDDEN work", some 1, some 0⟩]
      ⟨200, some ["k1"], none, ""⟩ rfl rfl (by decide)).1
  · exact (hide_idempotent 1 "f1" [⟨some "k1", 0, 5, "work", none, some 0⟩]
      ⟨200, some ["k1"], none, ""⟩ "k1" ⟨some "k1", 0, 5, "work", none, some 0⟩
      ⟨some "k1", 0, 5, "HIDDEN work", some 1, some 0⟩ rfl rfl
      2 "f2" [⟨some "k1", 0, 5, "HIDDEN work", some 1, some 0⟩]
      ⟨200, some ["k1"], none, ""⟩ rfl rfl (by decide)).2

/-- C5 amended: for every non-empty tag string the tag search keeps exactly
the fetched records whose description contains the `#`-normalized tag as a
substring; in particular tag `a` over descriptions `#ab` and `#a` returns
both.  (An empty tag is falsy in Python and skips the filter entirely, see
the counterexample.) -/
theorem tag_search_substring
    (records : List TimeRecord) (t : String) (ht : t ≠ "")
    (now midnight : Int) (body : String) :
    (get_records now midnight ⟨200, records, body⟩ none none none (some t)).result
      = .ok (claimTagFilter t records)
    ∧ (get_records 0 0 ⟨200, [⟨some "r1", 0, 1, "#ab", none, some 0⟩,
          ⟨some "r2", 0, 1, "#a", none, some 0⟩], ""⟩ none none none (some "a")).result
      = .ok [⟨some "r1", 0, 1, "#ab", none, some 0⟩,
          ⟨some "r2", 0, 1, "#a", none, some 0⟩] := by
  constructor
  · simp [get_records, computeTimerange, claimTagFilter, ht]
  · decide

/-- Witness for C5's amended statement at a concrete tag and record list. -/
theorem tag_search_substring_witness :
    ("a" ≠ "")
    ∧ (get_records 5 3 ⟨200, [⟨some "r1", 0, 1, "#ab", none, some 0⟩], ""⟩
        none none none (some "a")).result
      = .ok (claimTagFilter "a" [⟨some "r1", 0, 1, "#ab", none, some 0⟩]) :=
  ⟨by decide,
    (tag_search_substring [⟨some "r1", 0, 1, "#ab", none, some 0⟩] "a" (by decide) 5 3 "").1⟩

/-- C5 counterexample: with the empty tag string the code skips the tag
filter (Python `if tag:`), while the claim's normalize-then-filter would
discard a record whose description has no `#` at all. -/
theorem tag_search_empty_tag_cex :
    (get_records 0 0 ⟨200, [⟨some "r1", 0, 1, "work", none, some 0⟩], ""⟩
        none none none (some "")).result
      = .ok [⟨some "r1", 0, 1, "work", none, some 0⟩]
    ∧ claimTagFilter "" [⟨some "r1", 0, 1, "work", none, some 0⟩] = [] := by
  constructor <;> decide

theorem summaryStep_eq_claim {r : TimeRecord} (h : r.t1 ≤ r.t2)
    (m : List (String × ℚ)) :
    summaryStep m r = claimSummaryStep m r := by
  unfold summaryStep claimSummaryStep
  rw [if_neg (not_lt.mpr (duration_nonneg h))]

theorem foldl_summary_eq_claim (l : List TimeRecord) (h : ∀ r ∈ l, r.t1 ≤ r.t2)
    (m : List (String × ℚ)) :
    l.foldl summaryStep m = l.foldl claimSummaryStep m := by
  induction l generalizing m with
  | nil => rfl
  | cons r t ih =>
    rw [List.foldl_cons, List.foldl_cons,
      summaryStep_eq_claim (h r (List.mem_cons_self r t)),
      ih (fun x hx => h x (List.mem_cons_of_mem r hx)) _]

/-- C1 amended: over fetched records of non-negative duration the summary
analysis is exactly the claimed mapping (hidden records excluded, full
duration credited to every `#`-token, `"untagged"` for tagless records), and
the claim's two concrete examples hold; records with `t2 < t1` are skipped
by the code, see the counterexample. -/
theorem summary_matches_claim
    (now midnight : Int) (dayOf : Int → String) (hourOf : Int → Fin 24)
    (records : List TimeRecord) (body : String)
    (h : ∀ r ∈ records, r.t1 ≤ r.t2) :
    analyze_time now midnight dayOf hourOf ⟨200, records, body⟩ "summary" "week" none
      = .ok ("summary", claimSummary records)
    ∧ analyze_time 0 0 (fun _ => "") (fun _ => 0)
        ⟨200, [⟨some "k", 0, 3600, "#a #b", none, some 0⟩], ""⟩ "summary" "week" none
      = .ok ("summary", [("#a", 1), ("#b", 1)])
    ∧ analyze_time 0 0 (fun _ => "") (fun _ => 0)
        ⟨200, [⟨some "k", 0, 1800, "work", none, some 0⟩], ""⟩ "summary" "week" none
      = .ok ("summary", [("untagged", 1/2)]) := by
  refine ⟨?_, ?_, ?_⟩
  · show Except.ok ("summary",
        (records.filter (fun r => !(pyStartswith r.ds "HIDDEN"))).foldl summaryStep []) = _
    rw [claimSummary, foldl_summary_eq_claim]
    intro r hr
    exact h r (List.mem_of_mem_filter hr)
  · have h0 : duration ⟨some "k", 0, 3600, "#a #b", none, some 0⟩ = 1 := by
      norm_num [duration]
    have htags : (pySplit "#a #b").filter (fun w => pyStartswith w "#")
        = ["#a", "#b"] := by decide
    have hs : summaryStep [] ⟨some "k", 0, 3600, "#a #b", none, some 0⟩
        = [("#a", 1), ("#b", 1)] := by
      rw [summaryStep, h0]
      norm_num [htags, addHours]
      decide
    show Except.ok ("summary",
        List.foldl summaryStep [] [⟨some "k", 0, 3600, "#a #b", none, some 0⟩]) = _
    rw [List.foldl_cons, List.foldl_nil, hs]
  · have h0 : duration ⟨some "k", 0, 1800, "work", none, some 0⟩ = 1/2 := by
      norm_num [duration]
    have htags : (pySplit "work").filter (fun w => pyStartswith w "#") = [] := by decide
    have hs : summaryStep [] ⟨some "k", 0, 1800, "work", none, some 0⟩
        = [("untagged", 1/2)] := by
      rw [summaryStep, h0]
      norm_num [htags, addHours]
    show Except.ok ("summary",
        List.foldl summaryStep [] [⟨some "k", 0, 1800, "work", none, some 0⟩]) = _
    rw [List.foldl_cons, List.foldl_nil, hs]

/-- Witness for C1's amended statement on a concrete (empty) fetch. -/
theorem summary_matches_claim_witness :
    (∀ r ∈ ([] : List TimeRecord), r.t1 ≤ r.t2)
    ∧ analyze_time 4 2 (fun _ => "") (fun _ => 0) ⟨200, [], "b"⟩ "summary" "week" none
      = .ok ("summary", claimSummary []) :=
  ⟨by simp,
    (summary_matches_claim 4 2 (fun _ => "") (fun _ => 0) [] "b" (by simp)).1⟩

/-- C1 counterexample: on a record with `t2 < t1` the code's summary skips the
record (empty mapping) while the claim's description credits the negative
duration to its tag. -/
theorem summary_negative_duration_cex :
    analyze_time 0 0 (fun _ => "") (fun _ => 0)
      ⟨200, [⟨some "k", 3600, 0, "#a", none, some 0⟩], ""⟩ "summary" "week" none
      = .ok ("summary", [])
    ∧ claimSummary [⟨some "k", 3600, 0, "#a", none, some 0⟩] = [("#a", -1)] := by
  have hd : duration ⟨some "k", 3600, 0, "#a", none, some 0⟩ = -1 := by
    norm_num [duration]
  constructor
  · show Except.ok ("summary",
        List.foldl summaryStep [] [⟨some "k", 3600, 0, "#a", none, some 0⟩]) = _
    rw [List.foldl_cons, List.foldl_nil, summaryStep, hd]
    norm_num
  · show List.foldl claimSummaryStep [] [⟨some "k", 3600, 0, "#a", none, some 0⟩] = _
    have htags : (pySplit "#a").filter (fun w => pyStartswith w "#") = ["#a"] := by decide
    rw [List.foldl_cons, List.foldl_nil, claimSummaryStep, hd]
    norm_num [htags, addHours]

theorem addHours_nonneg (k : String) (d : ℚ) (hd : 0 ≤ d) :
    ∀ (m : List (String × ℚ)), (∀ kv ∈ m, 0 ≤ kv.2) →
      ∀ kv ∈ addHours m k d, 0 ≤ kv.2 := by
  intro m
  induction m with
  | nil =>
    intro hm kv hkv
    simp [addHours] at hkv
    subst hkv
    exact hd
  | cons p t ih =>
    obtain ⟨k', v⟩ := p
    intro hm kv hkv
    rw [addHours] at hkv
    by_cases h : k' = k
    · rw [if_pos h] at hkv
      rcases List.mem_cons.mp hkv with h1 | h1
      · subst h1
        exact add_nonneg (hm (k', v) (List.mem_cons_self _ _)) hd
      · exact hm kv (List.mem_cons_of_mem _ h1)
    · rw [if_neg h] at hkv
      rcases List.mem_cons.mp hkv with h1 | h1
      · subst h1
        exact hm (k', v) (List.mem_cons_self _ _)
      · exact ih (fun x hx => hm x (List.mem_cons_of_mem _ hx)) kv h1

theorem foldl_tags_nonneg (d : ℚ) (hd : 0 ≤ d) :
    ∀ (tags : List String) (m : List (String × ℚ)), (∀ kv ∈ m, 0 ≤ kv.2) →
      ∀ kv ∈ tags.foldl (fun m tk => addHours m tk d) m, 0 ≤ kv.2 := by
  intro tags
  induction tags with
  | nil => exact fun m hm => hm
  | cons a t ih =>
    intro m hm
    simp only [List.foldl_cons]
    exact ih _ (addHours_nonneg a d hd m hm)

theorem summaryStep_nonneg (r : TimeRecord) (m : List (String × ℚ))
    (hm : ∀ kv ∈ m, 0 ≤ kv.2) : ∀ kv ∈ summaryStep m r, 0 ≤ kv.2 := by
  have hbody : summaryStep m r =
      if duration r < 0 then m
      else if ((pySplit r.ds).filter (fun w => pyStartswith w "#")).isEmpty = true then
        addHours m "untagged" (duration r)
      else
        ((pySplit r.ds).filter (fun w => pyStartswith w "#")).foldl
          (fun m tk => addHours m tk (duration r)) m := rfl
  rw [hbody]
  split
  · exact hm
  · next hlt =>
    have hd : 0 ≤ duration r := not_lt.mp hlt
    split
    · exact addHours_nonneg "untagged" (duration r) hd m hm
    · exact foldl_tags_nonneg (duration r) hd _ m hm

theorem dailyStep_nonneg (dayOf : Int → String) (r : TimeRecord)
    (m : List (String × ℚ)) (hm : ∀ kv ∈ m, 0 ≤ kv.2) :
    ∀ kv ∈ dailyStep dayOf m r, 0 ≤ kv.2 := by
  rw [dailyStep]
  split
  · exact hm
  · next hlt =>
    exact addHours_nonneg _ (duration r) (not_lt.mp hlt) m hm

theorem hourlyStep_nonneg (hourOf : Int → Fin 24) (r : TimeRecord)
    (m : List (String × ℚ)) (hm : ∀ kv ∈ m, 0 ≤ kv.2) :
    ∀ kv ∈ hourlyStep hourOf m r, 0 ≤ kv.2 := by
  have hbody : hourlyStep hourOf m r =
      if duration r < 0 then m
      else if hourOf r.t1 = hourOf r.t2 then
        addHours m (toString (hourOf r.t1).val) (duration r)
      else addHours m (toString (hourOf r.t1).val) (duration r) := rfl
  rw [hbody, ite_self]
  split
  · exact hm
  · next hlt =>
    exact addHours_nonneg _ (duration r) (not_lt.mp hlt) m hm

theorem foldl_step_nonneg {step : List (String × ℚ) → TimeRecord → List (String × ℚ)}
    (hstep : ∀ m r, (∀ kv ∈ m, 0 ≤ kv.2) → ∀ kv ∈ step m r, 0 ≤ kv.2) :
    ∀ (l : List TimeRecord) (m : List (String × ℚ)), (∀ kv ∈ m, 0 ≤ kv.2) →
      ∀ kv ∈ l.foldl step m, 0 ≤ kv.2 := by
  intro l
  induction l with
  | nil => exact fun m hm => hm
  | cons r t ih =>
    intro m hm
    simp only [List.foldl_cons]
    exact ih _ (hstep m r hm)

theorem hourlyInit_nonneg : ∀ kv ∈ hourlyInit, 0 ≤ kv.2 := by
  intro kv hkv
  rw [hourlyInit] at hkv
  obtain ⟨a, -, rfl⟩ := List.mem_map.mp hkv
  exact le_refl 0

theorem summaryStep_skip (m : List (String × ℚ)) {r : TimeRecord} (h : r.t2 < r.t1) :
    summaryStep m r = m := by
  rw [summaryStep, if_pos (duration_neg h)]

theorem dailyStep_skip (dayOf : Int → String) (m : List (String × ℚ))
    {r : TimeRecord} (h : r.t2 < r.t1) : dailyStep dayOf m r = m := by
  rw [dailyStep, if_pos (duration_neg h)]

theorem hourlyStep_skip (hourOf : Int → Fin 24) (m : List (String × ℚ))
    {r : TimeRecord} (h : r.t2 < r.t1) : hourlyStep hourOf m r = m := by
  rw [hourlyStep, if_pos (duration_neg h)]

/-- C10: every analysis type skips records with `t2 < t1` (they contribute
nothing), and every value of a successful `analyze_time` mapping is
non-negative. -/
theorem analyze_time_nonneg
    (now midnight : Int) (dayOf : Int → String) (hourOf : Int → Fin 24)
    (resp : GetRecordsResponse) (analysis_type time_period : String) (tag : Option String)
    (ty : String) (data : List (String × ℚ))
    (h : analyze_time now midnight dayOf hourOf resp analysis_type time_period tag
      = .ok (ty, data)) :
    (∀ kv ∈ data, 0 ≤ kv.2)
    ∧ (∀ (m : List (String × ℚ)) (r : TimeRecord), r.t2 < r.t1 →
        summaryStep m r = m ∧ dailyStep dayOf m r = m ∧ hourlyStep hourOf m r = m) := by
  constructor
  · rw [analyze_time] at h
    rcases hg : (get_records now midnight resp none none (some time_period) tag).result
      with e | records
    · rw [hg] at h
      simp at h
    · rw [hg] at h
      have hnil : ∀ kv ∈ ([] : List (String × ℚ)), (0 : ℚ) ≤ kv.2 := by
        intro kv hkv
        exact absurd hkv (List.not_mem_nil kv)
      replace h : (if analysis_type = "summary" then
          Except.ok (ε := ToolError) ("summary",
            (records.filter (fun r => !(pyStartswith r.ds "HIDDEN"))).foldl summaryStep [])
        else if analysis_type = "daily" then
          Except.ok ("daily",
            (records.filter (fun r => !(pyStartswith r.ds "HIDDEN"))).foldl
              (dailyStep dayOf) [])
        else if analysis_type = "hourly" then
          Except.ok ("hourly",
            (records.filter (fun r => !(pyStartswith r.ds "HIDDEN"))).foldl
              (hourlyStep hourOf) hourlyInit)
        else Except.error (.validation ("Invalid analysis type: " ++ analysis_type)))
          = .ok (ty, data) := h
      split at h
      · rw [Except.ok.injEq, Prod.mk.injEq] at h
        rw [← h.2]
        exact foldl_step_nonneg (fun m r => summaryStep_nonneg r m) _ _ hnil
      · split at h
        · rw [Except.ok.injEq, Prod.mk.injEq] at h
          rw [← h.2]
          exact foldl_step_nonneg (fun m r => dailyStep_nonneg dayOf r m) _ _ hnil
        · split at h
          · rw [Except.ok.injEq, Prod.mk.injEq] at h
            rw [← h.2]
            exact foldl_step_nonneg (fun m r => hourlyStep_nonneg hourOf r m) _ _
              hourlyInit_nonneg
          · simp at h
  · intro m r hlt
    exact ⟨summaryStep_skip m hlt, dailyStep_skip dayOf m hlt, hourlyStep_skip hourOf m hlt⟩

/-- Witness for C10 on a concrete empty fetch. -/
theorem analyze_time_nonneg_witness :
    (analyze_time 0 0 (fun _ => "") (fun _ => 0) ⟨200, [], ""⟩ "summary" "week" none
      = .ok ("summary", []))
    ∧ ((∀ kv ∈ ([] : List (String × ℚ)), 0 ≤ kv.2)
      ∧ (∀ (m : List (String × ℚ)) (r : TimeRecord), r.t2 < r.t1 →
          summaryStep m r = m ∧ dailyStep (fun _ => "") m r = m
            ∧ hourlyStep (fun _ => 0) m r = m)) :=
  ⟨rfl, analyze_time_nonneg 0 0 (fun _ => "") (fun _ => 0) ⟨200, [], ""⟩ "summary" "week"
    none "summary" [] rfl⟩

end TimetaggerMCP
